import Mathlib

/-!
A shallow embedding of the GitHub-client layer of the terra-web front end
(`src/lib/github.ts`) and of the diff renderer of the project page
(`src/app/project/[id]/page.tsx`), together with theorems settling the
spec's claims about them.

JavaScript values flowing through the client are modelled by a small JSON
value type `Js`; an absent field (JS `undefined`) is modelled by `Option`.
The runtime environment (the stored token and the network) is a record
`Env`; every async API function becomes a function `Env → Except JsError α
× List Request`, the second component being the HTTP requests it issued, in
order.  `fetch` itself is modelled as total (the network always answers);
failures surface through `Response.ok = false`, exactly the paths the
claims are about.  `response.json()` is modelled as the already-parsed
`Response.body`.
-/

/-- JSON values (the parsed bodies of API responses and outgoing request
bodies).  JS `undefined` is not a `Js` value; an absent object field is an
`Option.none` at the use site. -/
inductive Js where
  | null : Js
  | bool : Bool → Js
  | num : Int → Js
  | str : String → Js
  | arr : List Js → Js
  | obj : List (String × Js) → Js
  deriving Repr

/-- Errors a JS function can throw.  `error` is an explicit
`throw new Error(msg)`; `typeError` a property access on
`undefined`/`null` (or calling a method that does not exist);
`invalidCharacterError` is what `atob`/`btoa` throw on bad input. -/
inductive JsError where
  | error : String → JsError
  | typeError : JsError
  | invalidCharacterError : JsError
  deriving Repr, DecidableEq

/-- An HTTP request as issued by `fetch`: method, full URL, bearer token
attached in the Authorization header, and the JSON body (for PUT/POST). -/
structure Request where
  method : String
  url : String
  auth : Option String
  body : Option Js
  deriving Repr

/-- An HTTP response: the `ok` flag (status in the 2xx range), the status
text, and the parsed JSON body. -/
structure Response where
  ok : Bool
  statusText : String
  body : Js
  deriving Repr

/-- The runtime environment: the token in localStorage (`github_token`
slot) and the network, a total map from requests to responses. -/
structure Env where
  token : Option String
  net : Request → Response

/-- The effect type of the async API functions: given the environment,
either a value or a thrown error, together with the list of HTTP requests
issued (in order). -/
def GH (α : Type) : Type := Env → Except JsError α × List Request

namespace GH

def pure' (a : α) : GH α := fun _ => (Except.ok a, [])

def bind' (x : GH α) (f : α → GH β) : GH β := fun env =>
  match x env with
  | (Except.error e, reqs) => (Except.error e, reqs)
  | (Except.ok a, reqs) =>
      let (r, reqs2) := f a env
      (r, reqs ++ reqs2)

instance : Monad GH where
  pure := pure'
  bind := bind'

/-- `throw new Error(...)` and friends. -/
def throwErr (e : JsError) : GH α := fun _ => (Except.error e, [])

/-- `getGitHubToken()`: read the stored token. -/
def getToken : GH (Option String) := fun env => (Except.ok env.token, [])

/-- `fetch(...)`: issue one HTTP request, receive the response. -/
def fetch (req : Request) : GH Response := fun env => (Except.ok (env.net req), [req])

end GH

/-- Field lookup on a JSON value, as a plain read: `obj.k` when the result
is immediately tested rather than dereferenced.  Non-objects have no
fields (the access yields `undefined` = `none`); note that reading a field
OF `null`/`undefined` throws in JS and is modelled separately at each use
site. -/
def Js.get : Js → String → Option Js
  | Js.obj fields, k => fields.lookup k
  | _, _ => Option.none

/-- Replace the value of field `k` (JS assignment `o.k = v` on an object
that already has the field; other shapes are left unchanged — in the
embedded code the assignment only ever runs on such an object). -/
def Js.set : Js → String → Js → Js
  | Js.obj fields, k, v => Js.obj (fields.map fun p => if p.1 = k then (p.1, v) else p)
  | j, _, _ => j

/-- JS truthiness of a possibly-absent value (`undefined` is falsy). -/
def jsTruthy : Option Js → Bool
  | Option.none => false
  | Option.some Js.null => false
  | Option.some (Js.bool b) => b
  | Option.some (Js.num n) => decide (n ≠ 0)
  | Option.some (Js.str s) => decide (s ≠ "")
  | Option.some (Js.arr _) => true
  | Option.some (Js.obj _) => true

mutual

/-- JS string coercion of a value, as in a template literal.  Only the
string case is ever exercised by the claims; the other cases follow JS's
standard conversions (arrays join their coerced elements with commas). -/
def Js.coerceStr : Js → String
  | Js.null => "null"
  | Js.bool b => if b then "true" else "false"
  | Js.num n => toString n
  | Js.str s => s
  | Js.arr xs => String.intercalate "," (coerceStrList xs)
  | Js.obj _ => "[object Object]"

def coerceStrList : List Js → List String
  | [] => []
  | x :: xs => x.coerceStr :: coerceStrList xs

end

/-- Coercion of a possibly-absent value in a template literal
(`undefined` prints as "undefined"). -/
def tmplStr : Option Js → String
  | Option.none => "undefined"
  | Option.some v => v.coerceStr

/-- Does `needle` occur as a leading run of `hay`? -/
def charsLead : List Char → List Char → Bool
  | [], _ => true
  | _ :: _, [] => false
  | a :: as, b :: bs => a = b && charsLead as bs

/-- Does `needle` occur as a contiguous run anywhere in `hay`?
(Model of JS `String.prototype.includes`.) -/
def charsIncl (needle : List Char) : List Char → Bool
  | [] => needle.isEmpty
  | h :: t => charsLead needle (h :: t) || charsIncl needle t

/-- JS `hay.includes(needle)`. -/
def strIncludes (hay needle : String) : Bool :=
  charsIncl needle.toList hay.toList

/-- JS `s.startsWith(pre)` (character-list model). -/
def strStarts (s pre : String) : Bool :=
  charsLead pre.toList s.toList

/-- JS `s.endsWith(post)` (character-list model). -/
def strEnds (s post : String) : Bool :=
  charsLead post.toList.reverse s.toList.reverse

/-! ### Base64 (`btoa` / `atob`)

`btoa` maps a string of code points ≤ 255 to its base64 encoding and
throws `InvalidCharacterError` on larger code points (modelled as
`Option.none`).  `atob` implements the forgiving-base64 decode used by
browsers: strip ASCII whitespace, allow/strip canonical `=` padding,
reject length ≡ 1 (mod 4) and characters outside the alphabet. -/

def b64Alphabet : List Char :=
  "ABCDEFGHIJKLMNOPQRSTUVWXYZabcdefghijklmnopqrstuvwxyz0123456789+/".toList

def b64Char (n : Nat) : Char := b64Alphabet.getD n 'A'

def b64Index (c : Char) : Option Nat :=
  b64Alphabet.indexOf? c

/-- Base64-encode a byte sequence (3 bytes → 4 alphabet characters,
`=`-padded). -/
def btoaBytes : List Nat → String
  | [] => ""
  | [a] => String.mk [b64Char (a / 4), b64Char (a % 4 * 16), '=', '=']
  | [a, b] => String.mk [b64Char (a / 4), b64Char (a % 4 * 16 + b / 16), b64Char (b % 16 * 4), '=']
  | a :: b :: c :: rest =>
      String.mk [b64Char (a / 4), b64Char (a % 4 * 16 + b / 16),
                 b64Char (b % 16 * 4 + c / 64), b64Char (c % 64)] ++ btoaBytes rest

/-- Browser `btoa`: base64-encode a string of code points ≤ 255; a larger
code point throws `InvalidCharacterError` (here: `none`). -/
def btoa (s : String) : Option String :=
  if s.toList.all (fun c => c.toNat ≤ 255) then
    Option.some (btoaBytes (s.toList.map Char.toNat))
  else Option.none

/-- Map each character to its alphabet index; fail on a character outside
the base64 alphabet. -/
def b64Sextets : List Char → Option (List Nat)
  | [] => Option.some []
  | c :: rest =>
      match b64Index c, b64Sextets rest with
      | Option.some n, Option.some ns => Option.some (n :: ns)
      | _, _ => Option.none

/-- Reassemble decoded sextets into bytes (4 sextets → 3 bytes; a final
group of 2 or 3 sextets yields 1 or 2 bytes). -/
def b64Assemble : List Nat → List Nat
  | s1 :: s2 :: s3 :: s4 :: rest =>
      (s1 * 4 + s2 / 16) :: (s2 % 16 * 16 + s3 / 4) :: (s3 % 4 * 64 + s4) :: b64Assemble rest
  | [s1, s2] => [s1 * 4 + s2 / 16]
  | [s1, s2, s3] => [s1 * 4 + s2 / 16, s2 % 16 * 16 + s3 / 4]
  | _ => []

/-- Strip one or two trailing `=` characters. -/
def stripPad (t : List Char) : List Char :=
  match t.reverse with
  | '=' :: '=' :: rest => rest.reverse
  | '=' :: rest => rest.reverse
  | _ => t

/-- Browser `atob` (forgiving-base64 decode): strip ASCII whitespace,
strip canonical `=` padding, reject length ≡ 1 (mod 4) and characters
outside the alphabet, then decode. -/
def atob (s : String) : Option String :=
  let t0 := s.toList.filter fun c =>
    ¬ (c = ' ' ∨ c = '\t' ∨ c = '\n' ∨ c = '\x0c' ∨ c = '\r')
  let t := if t0.length % 4 = 0 then stripPad t0 else t0
  if t.length % 4 = 1 then Option.none
  else (b64Sextets t).map fun ns => String.mk ((b64Assemble ns).map Char.ofNat)

/-! ### The GitHub API client (`src/lib/github.ts`) -/

/-- `githubApi(endpoint)`: require a stored token, issue one GET to the
host with the bearer token attached, throw `GitHub API error: <status>`
on a non-2xx response, return the parsed body.  (Every call site in the
repository uses the default options, i.e. a GET with no body.) -/
def githubApi (endpoint : String) : GH Js := do
  let tok ← GH.getToken
  match tok with
  | Option.none => GH.throwErr (JsError.error "No GitHub token found")
  | Option.some t => do
      let resp ← GH.fetch
        { method := "GET", url := "https://api.github.com" ++ endpoint,
          auth := Option.some t, body := Option.none }
      if resp.ok then pure resp.body
      else GH.throwErr (JsError.error ("GitHub API error: " ++ resp.statusText))

/-- `getGitHubUser()`. -/
def getGitHubUser : GH Js := githubApi "/user"

/-- `getGitHubRepos()`. -/
def getGitHubRepos : GH Js := githubApi "/user/repos?sort=updated&per_page=100"

/-- `getRepoBranches(owner, repo)`. -/
def getRepoBranches (owner repo : String) : GH Js :=
  githubApi ("/repos/" ++ owner ++ "/" ++ repo ++ "/branches")

/-- The `?ref=` query suffix from an optional branch. -/
def refSuffix : Option String → String
  | Option.some b => "?ref=" ++ b
  | Option.none => ""

/-- Test whether a possibly-absent value strictly equals a given string
(JS `===` against a string literal). -/
def isStrEq (o : Option Js) (s : String) : Bool :=
  match o with
  | Option.some (Js.str t) => t == s
  | _ => false

/-- The pure post-processing step of `getRepoFile`:
`if (data.content && data.encoding === 'base64') data.content = atob(data.content)`.
Reading `.content` of a `null` body throws a `TypeError`; an invalid
base64 payload makes `atob` throw; otherwise the (possibly decoded)
record is returned. -/
def decodeStep (data : Js) : Except JsError Js :=
  match data with
  | Js.null => Except.error JsError.typeError
  | _ =>
      match data.get "content" with
      | Option.some v =>
          if jsTruthy (Option.some v) && isStrEq (data.get "encoding") "base64" then
            match atob v.coerceStr with
            | Option.some decoded => Except.ok (data.set "content" (Js.str decoded))
            | Option.none => Except.error JsError.invalidCharacterError
          else Except.ok data
      | Option.none => Except.ok data

/-- `getRepoFile(owner, repo, path, branch?)`: fetch the contents record,
then apply the base64 decode step before returning it. -/
def getRepoFile (owner repo path : String) (branch : Option String) : GH Js := do
  let data ← githubApi ("/repos/" ++ owner ++ "/" ++ repo ++ "/contents/" ++ path ++ refSuffix branch)
  match decodeStep data with
  | Except.ok v => pure v
  | Except.error e => GH.throwErr e

/-- `getRepoContents(owner, repo, path = '', branch?)`. -/
def getRepoContents (owner repo path : String) (branch : Option String) : GH Js :=
  githubApi ("/repos/" ++ owner ++ "/" ++ repo ++ "/contents/" ++ path ++ refSuffix branch)

/-- `updateRepoFile(...)`: require a token, base64-encode the content
with `btoa`, issue one PUT whose JSON body carries message, encoded
content, sha and branch; throw `Failed to update file: <status>` on a
non-2xx response. -/
def updateRepoFile (owner repo path content message sha branch : String) : GH Js := do
  let tok ← GH.getToken
  match tok with
  | Option.none => GH.throwErr (JsError.error "No GitHub token found")
  | Option.some t =>
      match btoa content with
      | Option.none => GH.throwErr JsError.invalidCharacterError
      | Option.some b64 => do
          let resp ← GH.fetch
            { method := "PUT",
              url := "https://api.github.com/repos/" ++ owner ++ "/" ++ repo ++ "/contents/" ++ path,
              auth := Option.some t,
              body := Option.some (Js.obj
                [("message", Js.str message), ("content", Js.str b64),
                 ("sha", Js.str sha), ("branch", Js.str branch)]) }
          if resp.ok then pure resp.body
          else GH.throwErr (JsError.error ("Failed to update file: " ++ resp.statusText))

/-- The chained property access `j.k1.k2`: throws `TypeError` when `j`
is not an object with field `k1` (so that `j.k1` is `undefined`, or the
access itself is on `null`); when `j.k1` is a non-null primitive the
second access yields `undefined` without throwing. -/
def jsPropChain (j : Js) (k1 k2 : String) : Except JsError (Option Js) :=
  match j with
  | Js.obj fields =>
      match fields.lookup k1 with
      | Option.none => Except.error JsError.typeError
      | Option.some Js.null => Except.error JsError.typeError
      | Option.some (Js.obj fs2) => Except.ok (fs2.lookup k2)
      | Option.some _ => Except.ok Option.none
  | _ => Except.error JsError.typeError

/-- The record `createBranch` returns: `{ name, commit: { sha } }`. -/
structure GitHubBranch where
  name : String
  commitSha : Option Js
  deriving Repr

/-- `createBranch(owner, repo, newBranchName, fromBranch)`: require a
token; resolve the source branch's head sha with a GET; then POST the new
ref at that sha (`JSON.stringify` omits the `sha` key when the resolved
value is `undefined`); throw `Failed to create branch: <status>` on a
non-2xx POST response. -/
def createBranch (owner repo newBranchName fromBranch : String) : GH GitHubBranch := do
  let tok ← GH.getToken
  match tok with
  | Option.none => GH.throwErr (JsError.error "No GitHub token found")
  | Option.some t => do
      let fromBranchData ← githubApi ("/repos/" ++ owner ++ "/" ++ repo ++ "/git/refs/heads/" ++ fromBranch)
      match jsPropChain fromBranchData "object" "sha" with
      | Except.error e => GH.throwErr e
      | Except.ok sha => do
          let resp ← GH.fetch
            { method := "POST",
              url := "https://api.github.com/repos/" ++ owner ++ "/" ++ repo ++ "/git/refs",
              auth := Option.some t,
              body := Option.some (Js.obj
                ([("ref", Js.str ("refs/heads/" ++ newBranchName))] ++
                  (match sha with
                   | Option.some v => [("sha", v)]
                   | Option.none => []))) }
          if resp.ok then
            match jsPropChain resp.body "object" "sha" with
            | Except.error e => GH.throwErr e
            | Except.ok s2 => pure { name := newBranchName, commitSha := s2 }
          else GH.throwErr (JsError.error ("Failed to create branch: " ++ resp.statusText))

/-! ### Repository infrastructure scanner (`analyzeRepository`) -/

/-- The `RepoAnalysis` aggregate (flags and matched file records). -/
structure RepoAnalysis where
  hasDockerCompose : Bool
  hasDockerfile : Bool
  hasTerraform : Bool
  hasKubernetes : Bool
  dockerComposeFile : Option Js
  dockerfiles : List Js
  terraformFiles : List Js
  kubernetesFiles : List Js
  deriving Repr

/-- The initial analysis value (`analysis` as declared at the top of
`analyzeRepository`): all flags false, all collections empty. -/
def emptyAnalysis : RepoAnalysis :=
  { hasDockerCompose := false, hasDockerfile := false, hasTerraform := false,
    hasKubernetes := false, dockerComposeFile := Option.none,
    dockerfiles := [], terraformFiles := [], kubernetesFiles := [] }

/-- `file.name.match(/^docker-compose\.(yml|yaml)$/)` is truthy: the
regex is anchored at both ends, so the name must be exactly one of the
two spellings. -/
def composeNameMatch (name : String) : Bool :=
  name == "docker-compose.yml" || name == "docker-compose.yaml"

/-- `file.name === 'Dockerfile' || file.name.startsWith('Dockerfile.')`. -/
def dockerfileNameMatch (name : String) : Bool :=
  name == "Dockerfile" || strStarts name "Dockerfile."

/-- `file.name.endsWith('.tf')`. -/
def terraformNameMatch (name : String) : Bool :=
  strEnds name ".tf"

/-- `file.name.includes('k8s') || file.name.includes('kubernetes')`
(case-sensitive substring). -/
def kubernetesNameMatch (name : String) : Bool :=
  strIncludes name "k8s" || strIncludes name "kubernetes"

/-- Extract `file.name` as it is first used (`file.name.match(...)`):
a `file` that is not an object, or whose `name` field is absent or not a
string, makes that very first use throw a `TypeError` (`.name` on
`null`, or `.match` on `undefined`/a non-string). -/
def entryName : Js → Except JsError String
  | Js.obj fields =>
      match fields.lookup "name" with
      | Option.some (Js.str s) => Except.ok s
      | _ => Except.error JsError.typeError
  | _ => Except.error JsError.typeError

/-- The result of running a (prefix of a) loop body: the analysis as
mutated so far, the error that interrupted it (if any), and the requests
issued. -/
abbrev ScanStep := (RepoAnalysis × Option JsError) × List Request

/-- Sequence two mutation steps: an error in the first skips the second
but keeps the first's mutations (`analysis` is a variable outside the
`try`, so partial mutations survive the throw). -/
def scanSeq (s : ScanStep) (next : RepoAnalysis → ScanStep) : ScanStep :=
  match s with
  | ((a, Option.some e), reqs) => ((a, Option.some e), reqs)
  | ((a, Option.none), reqs) =>
      match next a with
      | ((a2, e2), reqs2) => ((a2, e2), reqs ++ reqs2)

/-- Rule 1 of the loop body: on a compose-name match, set
`hasDockerCompose` and then fetch the file into `dockerComposeFile`
(overwriting any earlier value); a fetch failure leaves the flag set. -/
def composeRuleStep (owner repo : String) (branch : Option String) (name path : String)
    (env : Env) (a : RepoAnalysis) : ScanStep :=
  if composeNameMatch name then
    let a1 := { a with hasDockerCompose := true }
    match getRepoFile owner repo path branch env with
    | (Except.ok f, reqs) => (({ a1 with dockerComposeFile := Option.some f }, Option.none), reqs)
    | (Except.error e, reqs) => ((a1, Option.some e), reqs)
  else ((a, Option.none), [])

/-- Rule 2: on a Dockerfile-name match, set `hasDockerfile` and then
fetch and append the file to `dockerfiles`. -/
def dockerfileRuleStep (owner repo : String) (branch : Option String) (name path : String)
    (env : Env) (a : RepoAnalysis) : ScanStep :=
  if dockerfileNameMatch name then
    let a1 := { a with hasDockerfile := true }
    match getRepoFile owner repo path branch env with
    | (Except.ok f, reqs) => (({ a1 with dockerfiles := a1.dockerfiles ++ [f] }, Option.none), reqs)
    | (Except.error e, reqs) => ((a1, Option.some e), reqs)
  else ((a, Option.none), [])

/-- Rule 3: on a `.tf` suffix, set `hasTerraform` and then fetch and
append the file to `terraformFiles`. -/
def terraformRuleStep (owner repo : String) (branch : Option String) (name path : String)
    (env : Env) (a : RepoAnalysis) : ScanStep :=
  if terraformNameMatch name then
    let a1 := { a with hasTerraform := true }
    match getRepoFile owner repo path branch env with
    | (Except.ok f, reqs) => (({ a1 with terraformFiles := a1.terraformFiles ++ [f] }, Option.none), reqs)
    | (Except.error e, reqs) => ((a1, Option.some e), reqs)
  else ((a, Option.none), [])

/-- Rule 4: on a k8s/kubernetes substring match, set `hasKubernetes`;
fetch and append to `kubernetesFiles` only when `file.type === 'file'`. -/
def kubernetesRuleStep (owner repo : String) (branch : Option String) (name path : String)
    (ftype : Option Js) (env : Env) (a : RepoAnalysis) : ScanStep :=
  if kubernetesNameMatch name then
    let a1 := { a with hasKubernetes := true }
    if isStrEq ftype "file" then
      match getRepoFile owner repo path branch env with
      | (Except.ok f, reqs) => (({ a1 with kubernetesFiles := a1.kubernetesFiles ++ [f] }, Option.none), reqs)
      | (Except.error e, reqs) => ((a1, Option.some e), reqs)
    else ((a1, Option.none), [])
  else ((a, Option.none), [])

/-- One iteration of the `for (const file of rootContents)` loop: the
four classification rules run in order, each tested independently (no
short-circuiting between rules); the first thrown error stops the
iteration but keeps the mutations made before it. -/
def processFile (owner repo : String) (branch : Option String) (file : Js)
    (a0 : RepoAnalysis) (env : Env) : ScanStep :=
  match entryName file with
  | Except.error e => ((a0, Option.some e), [])
  | Except.ok name =>
      let path := tmplStr (file.get "path")
      scanSeq (composeRuleStep owner repo branch name path env a0) fun a1 =>
        scanSeq (dockerfileRuleStep owner repo branch name path env a1) fun a2 =>
          scanSeq (terraformRuleStep owner repo branch name path env a2) fun a3 =>
            kubernetesRuleStep owner repo branch name path (file.get "type") env a3

/-- The whole loop: entries are processed sequentially, in listing
order; the first error aborts the remaining iterations, keeping the
analysis accumulated so far. -/
def analyzeLoop (owner repo : String) (branch : Option String) (env : Env) :
    List Js → RepoAnalysis → ScanStep
  | [], a => ((a, Option.none), [])
  | f :: rest, a =>
      match processFile owner repo branch f a env with
      | ((a2, Option.some e), reqs) => ((a2, Option.some e), reqs)
      | ((a2, Option.none), reqs) =>
          match analyzeLoop owner repo branch env rest a2 with
          | (r, reqs2) => (r, reqs ++ reqs2)

/-- `analyzeRepository(owner, repo, branch?)`: list the root, classify
every entry, and swallow every error (`try { ... } catch { log }`
followed by `return analysis`).  A non-array root body makes the
`for..of` throw before any mutation (not iterable, or a string whose
characters throw at `.name.match`), so the catch returns the initial
analysis, same as the listing-failure path. -/
def analyzeRepository (owner repo : String) (branch : Option String) : GH RepoAnalysis := fun env =>
  match getRepoContents owner repo "" branch env with
  | (Except.error _, reqs) => (Except.ok emptyAnalysis, reqs)
  | (Except.ok rootContents, reqs) =>
      match rootContents with
      | Js.arr files =>
          match analyzeLoop owner repo branch env files emptyAnalysis with
          | ((aFinal, _), reqs2) => (Except.ok aFinal, reqs ++ reqs2)
      | _ => (Except.ok emptyAnalysis, reqs)

/-! ### Diff renderer (`renderDiff` in `src/app/project/[id]/page.tsx`) -/

/-- Split a character list at `'\n'` separators (the semantics of JS
`text.split('\n')`): always at least one piece; a trailing newline
yields a trailing empty piece. -/
def splitNlChars : List Char → List (List Char)
  | [] => [[]]
  | c :: rest =>
      let r := splitNlChars rest
      if c = '\n' then [] :: r
      else (c :: r.headD []) :: r.tail

/-- JS `text.split('\n')`. -/
def splitLines (s : String) : List String :=
  (splitNlChars s.toList).map String.mk

/-- One rendered diff row: the old and new line at this index
(`none` = index beyond that side's line array, JS `undefined`) and the
`changed` highlight flag (`oldLine !== newLine`). -/
structure DiffRow where
  oldLine : Option String
  newLine : Option String
  changed : Bool
  deriving Repr, DecidableEq

/-- `renderDiff`: split both contents on `'\n'`, render
`max(oldLines.length, newLines.length)` rows; row `i` reads both arrays
at `i` (yielding `undefined` past the end) and is marked changed exactly
when `oldLines[i] !== newLines[i]`. -/
def renderDiff (oldContent newContent : String) : List DiffRow :=
  let oldLines := splitLines oldContent
  let newLines := splitLines newContent
  let maxLines := max oldLines.length newLines.length
  (List.range maxLines).map fun i =>
    let o := oldLines.get? i
    let n := newLines.get? i
    { oldLine := o, newLine := n, changed := decide (o ≠ n) }

/-- The diff behaviour the spec describes, for comparison: pad the
shorter side with EMPTY LINES up to the common length and mark row `i`
changed exactly when the padded lines differ. -/
def specPaddedChanged (oldContent newContent : String) (i : Nat) : Bool :=
  decide ((splitLines oldContent).getD i "" ≠ (splitLines newContent).getD i "")

/-! ### Request shapes and concrete environments -/

/-- The GET request `githubApi endpoint` issues when the stored token is
`tok`. -/
def apiGetReq (endpoint tok : String) : Request :=
  { method := "GET", url := "https://api.github.com" ++ endpoint,
    auth := Option.some tok, body := Option.none }

/-- The endpoint `getRepoFile`/`getRepoContents` hit. -/
def contentsEndpoint (owner repo path : String) (br : Option String) : String :=
  "/repos/" ++ owner ++ "/" ++ repo ++ "/contents/" ++ path ++ refSuffix br

/-- The GET request a contents read issues. -/
def contentsReq (owner repo path : String) (br : Option String) (tok : String) : Request :=
  apiGetReq (contentsEndpoint owner repo path br) tok

/-- An environment with no stored credential. -/
def envNoTok : Env :=
  { token := Option.none, net := fun _ => { ok := false, statusText := "", body := Js.null } }

/-- An environment with a credential where every request fails. -/
def envFail : Env :=
  { token := Option.some "t", net := fun _ => { ok := false, statusText := "Not Found", body := Js.null } }

/-- An environment with a credential where every request succeeds with an
opaque payload. -/
def envHappy : Env :=
  { token := Option.some "t", net := fun _ => { ok := true, statusText := "OK", body := Js.str "payload" } }

/-- An environment whose every response is a base64-encoded file record. -/
def envB64 : Env :=
  { token := Option.some "t",
    net := fun _ =>
      { ok := true, statusText := "OK",
        body := Js.obj [("name", Js.str "f.txt"), ("content", Js.str "aGVsbG8="),
                        ("encoding", Js.str "base64"), ("sha", Js.str "abc")] } }

/-- The PUT request `updateRepoFile` issues (content already
base64-encoded). -/
def updateReq (owner repo path message b64 sha branch tok : String) : Request :=
  { method := "PUT",
    url := "https://api.github.com/repos/" ++ owner ++ "/" ++ repo ++ "/contents/" ++ path,
    auth := Option.some tok,
    body := Option.some (Js.obj
      [("message", Js.str message), ("content", Js.str b64),
       ("sha", Js.str sha), ("branch", Js.str branch)]) }

/-- The endpoint resolving a branch's head ref. -/
def refsHeadEndpoint (owner repo fromBranch : String) : String :=
  "/repos/" ++ owner ++ "/" ++ repo ++ "/git/refs/heads/" ++ fromBranch

/-- The analysis after one loop iteration whose fetches all succeed with
record `v`: each of the four rules contributes independently. -/
def procResult (name : String) (ftype : Option Js) (a : RepoAnalysis) (v : Js) : RepoAnalysis :=
  let a1 := if composeNameMatch name then
    { a with hasDockerCompose := true, dockerComposeFile := Option.some v } else a
  let a2 := if dockerfileNameMatch name then
    { a1 with hasDockerfile := true, dockerfiles := a1.dockerfiles ++ [v] } else a1
  let a3 := if terraformNameMatch name then
    { a2 with hasTerraform := true, terraformFiles := a2.terraformFiles ++ [v] } else a2
  if kubernetesNameMatch name then
    (if isStrEq ftype "file" then
      { a3 with hasKubernetes := true, kubernetesFiles := a3.kubernetesFiles ++ [v] }
     else { a3 with hasKubernetes := true })
  else a3

/-- The requests one loop iteration issues when every fetch succeeds with
request trace `reqsF`: one fetch per matching rule (for the orchestration
rule, only on a `file`-typed entry). -/
def procReqs (name : String) (ftype : Option Js) (reqsF : List Request) : List Request :=
  (if composeNameMatch name then reqsF else []) ++
    ((if dockerfileNameMatch name then reqsF else []) ++
      ((if terraformNameMatch name then reqsF else []) ++
        (if kubernetesNameMatch name && isStrEq ftype "file" then reqsF else [])))

/-- A root directory entry named `k8s-manifests` of type `dir`. -/
def k8sDirEntry : Js :=
  Js.obj [("name", Js.str "k8s-manifests"), ("path", Js.str "k8s-manifests"),
          ("type", Js.str "dir")]

/-- A root directory entry named `k8s.yaml` of type `file`. -/
def k8sFileEntry : Js :=
  Js.obj [("name", Js.str "k8s.yaml"), ("path", Js.str "k8s.yaml"),
          ("type", Js.str "file")]

/-- A root directory entry named `Dockerfile.prod` of type `file`. -/
def dockerfileProdEntry : Js :=
  Js.obj [("name", Js.str "Dockerfile.prod"), ("path", Js.str "Dockerfile.prod"),
          ("type", Js.str "file")]

/-- A root directory entry named `docker-compose.yml` of type `file`. -/
def composeEntryYml : Js :=
  Js.obj [("name", Js.str "docker-compose.yml"), ("path", Js.str "docker-compose.yml"),
          ("type", Js.str "file")]

/-- A root directory entry named `docker-compose.yaml` of type `file`. -/
def composeEntryYaml : Js :=
  Js.obj [("name", Js.str "docker-compose.yaml"), ("path", Js.str "docker-compose.yaml"),
          ("type", Js.str "file")]

/-- An environment whose root listing holds both compose spellings, with
distinct file payloads (`"one"` for `.yml`, `"two"` for `.yaml`). -/
def envCompose2 : Env :=
  { token := Option.some "t",
    net := fun req =>
      if req.url = "https://api.github.com/repos/o/r/contents/docker-compose.yml" then
        { ok := true, statusText := "OK", body := Js.str "one" }
      else if req.url = "https://api.github.com/repos/o/r/contents/docker-compose.yaml" then
        { ok := true, statusText := "OK", body := Js.str "two" }
      else
        { ok := true, statusText := "OK", body := Js.arr [composeEntryYml, composeEntryYaml] } }

/-- An environment whose root listing holds one compose entry but whose
file fetches all fail. -/
def envScanFetchFail : Env :=
  { token := Option.some "t",
    net := fun req =>
      if req.url = "https://api.github.com/repos/o/r/contents/" then
        { ok := true, statusText := "OK", body := Js.arr [composeEntryYml] }
      else { ok := false, statusText := "Forbidden", body := Js.null } }

/-! ### Helper lemmas -/

theorem GH.bind_def (x : GH α) (f : α → GH β) : (x >>= f) = GH.bind' x f := rfl

theorem GH.pure_def (a : α) : (pure a : GH α) = GH.pure' a := rfl

theorem githubApi_noToken (endpoint : String) (env : Env) (h : env.token = Option.none) :
    githubApi endpoint env = (Except.error (JsError.error "No GitHub token found"), []) := by
  simp [githubApi, GH.bind_def, GH.bind', GH.getToken, h, GH.throwErr]

theorem githubApi_ok (endpoint : String) (env : Env) (tok : String)
    (htok : env.token = Option.some tok)
    (hok : (env.net (apiGetReq endpoint tok)).ok = true) :
    githubApi endpoint env =
      (Except.ok (env.net (apiGetReq endpoint tok)).body, [apiGetReq endpoint tok]) := by
  have h2 := hok
  simp only [apiGetReq] at h2
  simp [githubApi, GH.bind_def, GH.bind', GH.getToken, htok, GH.fetch, apiGetReq, h2,
    GH.pure_def, GH.pure']

theorem githubApi_err (endpoint : String) (env : Env) (tok : String)
    (htok : env.token = Option.some tok)
    (hok : (env.net (apiGetReq endpoint tok)).ok = false) :
    githubApi endpoint env =
      (Except.error (JsError.error ("GitHub API error: " ++ (env.net (apiGetReq endpoint tok)).statusText)),
       [apiGetReq endpoint tok]) := by
  have h2 := hok
  simp only [apiGetReq] at h2
  simp [githubApi, GH.bind_def, GH.bind', GH.getToken, htok, GH.fetch, apiGetReq, h2,
    GH.throwErr]

theorem getRepoContents_def (owner repo path : String) (br : Option String) :
    getRepoContents owner repo path br =
      githubApi ("/repos/" ++ owner ++ "/" ++ repo ++ "/contents/" ++ path ++ refSuffix br) := rfl

theorem lookup_map_replace (k : String) (v : Js) (fields : List (String × Js))
    (h : (fields.lookup k).isSome = true) :
    (fields.map fun p => if p.1 = k then (p.1, v) else p).lookup k = Option.some v := by
  induction fields with
  | nil => simp [List.lookup] at h
  | cons p rest ih =>
      obtain ⟨pk, pv⟩ := p
      rw [List.map_cons]
      by_cases hk : pk = k
      · subst hk
        simp only [if_pos rfl]
        rw [List.lookup]
        simp
      · simp only [if_neg hk]
        rw [List.lookup] at h ⊢
        have hk2 : (k == pk) = false := beq_eq_false_iff_ne.mpr fun hh => hk hh.symm
        rw [hk2] at h ⊢
        exact ih h

theorem Js.get_set_of_isSome (j : Js) (k : String) (v : Js)
    (h : (j.get k).isSome = true) : (j.set k v).get k = Option.some v := by
  cases j with
  | obj fields =>
      simp only [Js.get, Js.set]
      simp only [Js.get] at h
      exact lookup_map_replace k v fields h
  | null => simp [Js.get] at h
  | bool b => simp [Js.get] at h
  | num n => simp [Js.get] at h
  | str s => simp [Js.get] at h
  | arr xs => simp [Js.get] at h

/-- C2: with no stored credential, every host-API-client operation (user
fetch, repo listing, branch listing, file read, directory listing, file
write, branch creation) fails with the "No GitHub token found" error and
issues zero network requests. -/
theorem noCredential_ops_fail_without_network (env : Env) (h : env.token = Option.none)
    (owner repo path content message sha branch newBranch fromBranch : String)
    (br : Option String) :
    getGitHubUser env = (Except.error (JsError.error "No GitHub token found"), []) ∧
    getGitHubRepos env = (Except.error (JsError.error "No GitHub token found"), []) ∧
    getRepoBranches owner repo env = (Except.error (JsError.error "No GitHub token found"), []) ∧
    getRepoFile owner repo path br env = (Except.error (JsError.error "No GitHub token found"), []) ∧
    getRepoContents owner repo path br env = (Except.error (JsError.error "No GitHub token found"), []) ∧
    updateRepoFile owner repo path content message sha branch env =
      (Except.error (JsError.error "No GitHub token found"), []) ∧
    createBranch owner repo newBranch fromBranch env =
      (Except.error (JsError.error "No GitHub token found"), []) := by
  refine ⟨githubApi_noToken _ env h, githubApi_noToken _ env h, githubApi_noToken _ env h,
    ?_, githubApi_noToken _ env h, ?_, ?_⟩
  · show GH.bind' (githubApi _) _ env = _
    rw [GH.bind', githubApi_noToken _ env h]
  · simp [updateRepoFile, GH.bind_def, GH.bind', GH.getToken, h, GH.throwErr]
  · simp [createBranch, GH.bind_def, GH.bind', GH.getToken, h, GH.throwErr]

/-- C2 witness: all seven operations at a concrete credential-free
environment and concrete arguments. -/
theorem noCredential_ops_fail_without_network_witness :
    getGitHubUser envNoTok = (Except.error (JsError.error "No GitHub token found"), []) ∧
    getGitHubRepos envNoTok = (Except.error (JsError.error "No GitHub token found"), []) ∧
    getRepoBranches "o" "r" envNoTok = (Except.error (JsError.error "No GitHub token found"), []) ∧
    getRepoFile "o" "r" "p.txt" Option.none envNoTok =
      (Except.error (JsError.error "No GitHub token found"), []) ∧
    getRepoContents "o" "r" "" Option.none envNoTok =
      (Except.error (JsError.error "No GitHub token found"), []) ∧
    updateRepoFile "o" "r" "p.txt" "hello" "msg" "sha1" "main" envNoTok =
      (Except.error (JsError.error "No GitHub token found"), []) ∧
    createBranch "o" "r" "feature" "main" envNoTok =
      (Except.error (JsError.error "No GitHub token found"), []) :=
  noCredential_ops_fail_without_network envNoTok rfl "o" "r" "p.txt" "hello" "msg" "sha1"
    "main" "feature" "main" Option.none

theorem getRepoFile_run (owner repo path : String) (br : Option String) (env : Env)
    (tok : String) (htok : env.token = Option.some tok)
    (hok : (env.net (contentsReq owner repo path br tok)).ok = true) :
    getRepoFile owner repo path br env =
      (decodeStep (env.net (contentsReq owner repo path br tok)).body,
       [contentsReq owner repo path br tok]) := by
  have hapi := githubApi_ok (contentsEndpoint owner repo path br) env tok htok hok
  simp only [contentsEndpoint] at hapi
  simp only [contentsReq, contentsEndpoint] at hok ⊢
  show GH.bind' (githubApi _) _ env = _
  simp only [GH.bind']
  rw [hapi]
  cases hds : decodeStep (env.net (apiGetReq ("/repos/" ++ owner ++ "/" ++ repo ++ "/contents/" ++ path ++ refSuffix br) tok)).body with
  | ok v => simp [hds, GH.pure_def, GH.pure']
  | error e => simp [hds, GH.throwErr]

theorem decodeStep_base64 (fields : List (String × Js)) (s decoded : String)
    (hcontent : (Js.obj fields).get "content" = Option.some (Js.str s))
    (henc : (Js.obj fields).get "encoding" = Option.some (Js.str "base64"))
    (hdec : atob s = Option.some decoded) :
    ∃ v, decodeStep (Js.obj fields) = Except.ok v ∧
      v.get "content" = Option.some (Js.str decoded) := by
  by_cases hs : s = ""
  · subst hs
    have hdec0 : decoded = "" := by
      have h0 : atob "" = Option.some "" := rfl
      rw [h0] at hdec
      exact (Option.some_inj.mp hdec).symm
    subst hdec0
    refine ⟨Js.obj fields, ?_, hcontent⟩
    simp [decodeStep, hcontent, jsTruthy]
  · refine ⟨(Js.obj fields).set "content" (Js.str decoded), ?_, ?_⟩
    · simp [decodeStep, hcontent, henc, jsTruthy, hs, isStrEq, Js.coerceStr, hdec]
    · exact Js.get_set_of_isSome _ _ _ (by rw [hcontent]; rfl)

/-- C4: on a file read whose raw payload carries `encoding = "base64"`
and a string content, the returned record's content is the
base64-decoding (`atob`) of the raw content — the decode happens before
the record is returned. -/
theorem getRepoFile_base64_decoded (owner repo path : String) (br : Option String)
    (env : Env) (tok s decoded : String) (fields : List (String × Js))
    (htok : env.token = Option.some tok)
    (hok : (env.net (contentsReq owner repo path br tok)).ok = true)
    (hbody : (env.net (contentsReq owner repo path br tok)).body = Js.obj fields)
    (hcontent : (Js.obj fields).get "content" = Option.some (Js.str s))
    (henc : (Js.obj fields).get "encoding" = Option.some (Js.str "base64"))
    (hdec : atob s = Option.some decoded) :
    ∃ v, getRepoFile owner repo path br env =
        (Except.ok v, [contentsReq owner repo path br tok]) ∧
      v.get "content" = Option.some (Js.str decoded) := by
  obtain ⟨v, hv, hvc⟩ := decodeStep_base64 fields s decoded hcontent henc hdec
  refine ⟨v, ?_, hvc⟩
  rw [getRepoFile_run owner repo path br env tok htok hok, hbody, hv]

/-- C4 witness: a concrete read of a payload whose content is
`"aGVsbG8="` (base64 for `"hello"`). -/
theorem getRepoFile_base64_decoded_witness :
    ∃ v, getRepoFile "o" "r" "f.txt" Option.none envB64 =
        (Except.ok v, [contentsReq "o" "r" "f.txt" Option.none "t"]) ∧
      v.get "content" = Option.some (Js.str "hello") :=
  getRepoFile_base64_decoded "o" "r" "f.txt" Option.none envB64 "t" "aGVsbG8=" "hello"
    [("name", Js.str "f.txt"), ("content", Js.str "aGVsbG8="),
     ("encoding", Js.str "base64"), ("sha", Js.str "abc")]
    rfl rfl rfl rfl rfl rfl

/-- C8: a write with plain-text content issues exactly one request, and
that request's body carries as its `content` field the `btoa` (base64)
encoding of the supplied text — the encoding happens before sending. -/
theorem updateRepoFile_encodes_base64 (owner repo path content message sha branch : String)
    (env : Env) (tok b64 : String)
    (htok : env.token = Option.some tok)
    (henc : btoa content = Option.some b64) :
    (updateRepoFile owner repo path content message sha branch env).2 =
      [updateReq owner repo path message b64 sha branch tok] ∧
    ((updateReq owner repo path message b64 sha branch tok).body.bind
      fun b => b.get "content") = Option.some (Js.str b64) := by
  refine ⟨?_, by simp [updateReq, Js.get, List.lookup]⟩
  simp only [updateRepoFile, GH.bind_def, GH.bind', GH.getToken, htok, henc, GH.fetch,
    GH.throwErr, GH.pure_def, GH.pure', updateReq]
  cases h : (env.net
      { method := "PUT",
        url := "https://api.github.com/repos/" ++ owner ++ "/" ++ repo ++ "/contents/" ++ path,
        auth := Option.some tok,
        body := Option.some (Js.obj
          [("message", Js.str message), ("content", Js.str b64),
           ("sha", Js.str sha), ("branch", Js.str branch)]) }).ok <;>
    simp [h, GH.throwErr, GH.pure']

/-- C8 witness: a concrete write of `"hello"`; the request body carries
`"aGVsbG8="`. -/
theorem updateRepoFile_encodes_base64_witness :
    (updateRepoFile "o" "r" "f.txt" "hello" "msg" "sha1" "main" envHappy).2 =
      [updateReq "o" "r" "f.txt" "msg" "aGVsbG8=" "sha1" "main" "t"] ∧
    ((updateReq "o" "r" "f.txt" "msg" "aGVsbG8=" "sha1" "main" "t").body.bind
      fun b => b.get "content") = Option.some (Js.str "aGVsbG8=") :=
  updateRepoFile_encodes_base64 "o" "r" "f.txt" "hello" "msg" "sha1" "main" envHappy
    "t" "aGVsbG8=" rfl rfl

/-- C9: branch creation first resolves the source branch's head; when
that first call answers non-success, the whole operation fails with the
host-API error and the only request issued is that single GET — the
ref-creation POST is never sent. -/
theorem createBranch_source_missing_no_post (owner repo newBranch fromBranch : String)
    (env : Env) (tok : String)
    (htok : env.token = Option.some tok)
    (hfail : (env.net (apiGetReq (refsHeadEndpoint owner repo fromBranch) tok)).ok = false) :
    createBranch owner repo newBranch fromBranch env =
      (Except.error (JsError.error ("GitHub API error: " ++
          (env.net (apiGetReq (refsHeadEndpoint owner repo fromBranch) tok)).statusText)),
       [apiGetReq (refsHeadEndpoint owner repo fromBranch) tok]) ∧
    (apiGetReq (refsHeadEndpoint owner repo fromBranch) tok).method = "GET" := by
  have hapi := githubApi_err (refsHeadEndpoint owner repo fromBranch) env tok htok hfail
  simp only [refsHeadEndpoint] at hapi
  refine ⟨?_, rfl⟩
  simp only [refsHeadEndpoint, apiGetReq] at hfail ⊢
  simp only [createBranch, GH.bind_def, GH.bind', GH.getToken, htok]
  rw [hapi]
  simp [apiGetReq]

/-- C9 witness: concrete failing source-branch resolution. -/
theorem createBranch_source_missing_no_post_witness :
    createBranch "o" "r" "feature" "nope" envFail =
      (Except.error (JsError.error ("GitHub API error: " ++
          (envFail.net (apiGetReq (refsHeadEndpoint "o" "r" "nope") "t")).statusText)),
       [apiGetReq (refsHeadEndpoint "o" "r" "nope") "t"]) ∧
    (apiGetReq (refsHeadEndpoint "o" "r" "nope") "t").method = "GET" :=
  createBranch_source_missing_no_post "o" "r" "feature" "nope" envFail "t" rfl rfl

/-- C1: the scan never raises — its result is always `ok`; when the root
listing fails the returned analysis is the default-initialized one (all
flags false, all collections empty) with no further requests; and a
failure inside one entry's processing aborts the loop early, returning
exactly the analysis accumulated up to the failure. -/
theorem analyzeRepository_never_throws (owner repo : String) (br : Option String) (env : Env) :
    (∃ a, (analyzeRepository owner repo br env).1 = Except.ok a) ∧
    (∀ e reqs, getRepoContents owner repo "" br env = (Except.error e, reqs) →
      analyzeRepository owner repo br env = (Except.ok emptyAnalysis, reqs)) ∧
    (∀ file rest a a2 e reqs,
      processFile owner repo br file a env = ((a2, Option.some e), reqs) →
      analyzeLoop owner repo br env (file :: rest) a = ((a2, Option.some e), reqs)) := by
  refine ⟨?_, ?_, ?_⟩
  · rcases hc : getRepoContents owner repo "" br env with ⟨r, reqs⟩
    cases r with
    | error e => exact ⟨emptyAnalysis, by simp [analyzeRepository, hc]⟩
    | ok root =>
        cases root with
        | arr files =>
            rcases hl : analyzeLoop owner repo br env files emptyAnalysis with ⟨⟨aF, eF⟩, reqs2⟩
            exact ⟨aF, by simp [analyzeRepository, hc, hl]⟩
        | null => exact ⟨emptyAnalysis, by simp [analyzeRepository, hc]⟩
        | bool b => exact ⟨emptyAnalysis, by simp [analyzeRepository, hc]⟩
        | num n => exact ⟨emptyAnalysis, by simp [analyzeRepository, hc]⟩
        | str s => exact ⟨emptyAnalysis, by simp [analyzeRepository, hc]⟩
        | obj fs => exact ⟨emptyAnalysis, by simp [analyzeRepository, hc]⟩
  · intro e reqs h
    simp [analyzeRepository, h]
  · intro file rest a a2 e reqs h
    simp [analyzeLoop, h]

/-- C1 witness: with no token the root listing fails and the scan still
returns the empty analysis without raising. -/
theorem analyzeRepository_never_throws_witness :
    analyzeRepository "o" "r" Option.none envNoTok = (Except.ok emptyAnalysis, []) :=
  (analyzeRepository_never_throws "o" "r" Option.none envNoTok).2.1
    (JsError.error "No GitHub token found") [] rfl

theorem scanSeq_ok (a : RepoAnalysis) (reqs : List Request) (next : RepoAnalysis → ScanStep) :
    scanSeq ((a, Option.none), reqs) next = ((next a).1, reqs ++ (next a).2) := by
  unfold scanSeq
  rcases hn : next a with ⟨⟨a2, e2⟩, reqs2⟩
  simp [hn]

theorem composeRuleStep_eq (owner repo : String) (br : Option String) (name path : String)
    (env : Env) (a : RepoAnalysis) (v : Js) (reqsF : List Request)
    (hfetch : getRepoFile owner repo path br env = (Except.ok v, reqsF)) :
    composeRuleStep owner repo br name path env a =
      ((if composeNameMatch name then
          { a with hasDockerCompose := true, dockerComposeFile := Option.some v } else a,
        Option.none),
       if composeNameMatch name then reqsF else []) := by
  unfold composeRuleStep
  cases hc : composeNameMatch name <;> simp [hfetch]

theorem dockerfileRuleStep_eq (owner repo : String) (br : Option String) (name path : String)
    (env : Env) (a : RepoAnalysis) (v : Js) (reqsF : List Request)
    (hfetch : getRepoFile owner repo path br env = (Except.ok v, reqsF)) :
    dockerfileRuleStep owner repo br name path env a =
      ((if dockerfileNameMatch name then
          { a with hasDockerfile := true, dockerfiles := a.dockerfiles ++ [v] } else a,
        Option.none),
       if dockerfileNameMatch name then reqsF else []) := by
  unfold dockerfileRuleStep
  cases hd : dockerfileNameMatch name <;> simp [hfetch]

theorem terraformRuleStep_eq (owner repo : String) (br : Option String) (name path : String)
    (env : Env) (a : RepoAnalysis) (v : Js) (reqsF : List Request)
    (hfetch : getRepoFile owner repo path br env = (Except.ok v, reqsF)) :
    terraformRuleStep owner repo br name path env a =
      ((if terraformNameMatch name then
          { a with hasTerraform := true, terraformFiles := a.terraformFiles ++ [v] } else a,
        Option.none),
       if terraformNameMatch name then reqsF else []) := by
  unfold terraformRuleStep
  cases ht : terraformNameMatch name <;> simp [hfetch]

theorem kubernetesRuleStep_eq (owner repo : String) (br : Option String) (name path : String)
    (ftype : Option Js) (env : Env) (a : RepoAnalysis) (v : Js) (reqsF : List Request)
    (hfetch : getRepoFile owner repo path br env = (Except.ok v, reqsF)) :
    kubernetesRuleStep owner repo br name path ftype env a =
      ((if kubernetesNameMatch name then
          (if isStrEq ftype "file" then
            { a with hasKubernetes := true, kubernetesFiles := a.kubernetesFiles ++ [v] }
           else { a with hasKubernetes := true })
        else a,
        Option.none),
       if kubernetesNameMatch name && isStrEq ftype "file" then reqsF else []) := by
  unfold kubernetesRuleStep
  cases hk : kubernetesNameMatch name <;> cases hty : isStrEq ftype "file" <;> simp [hfetch]

theorem processFile_eq (owner repo : String) (br : Option String) (env : Env)
    (file : Js) (name : String) (a : RepoAnalysis) (v : Js) (reqsF : List Request)
    (hname : entryName file = Except.ok name)
    (hfetch : getRepoFile owner repo (tmplStr (file.get "path")) br env = (Except.ok v, reqsF)) :
    processFile owner repo br file a env =
      ((procResult name (file.get "type") a v, Option.none),
       procReqs name (file.get "type") reqsF) := by
  have h0 : processFile owner repo br file a env =
      scanSeq (composeRuleStep owner repo br name (tmplStr (file.get "path")) env a) (fun a1 =>
        scanSeq (dockerfileRuleStep owner repo br name (tmplStr (file.get "path")) env a1) fun a2 =>
          scanSeq (terraformRuleStep owner repo br name (tmplStr (file.get "path")) env a2) fun a3 =>
            kubernetesRuleStep owner repo br name (tmplStr (file.get "path")) (file.get "type") env a3) := by
    unfold processFile
    rw [hname]
  rw [h0]
  rw [composeRuleStep_eq owner repo br name _ env a v reqsF hfetch, scanSeq_ok]
  rw [dockerfileRuleStep_eq owner repo br name _ env _ v reqsF hfetch, scanSeq_ok]
  rw [terraformRuleStep_eq owner repo br name _ env _ v reqsF hfetch, scanSeq_ok]
  rw [kubernetesRuleStep_eq owner repo br name _ (file.get "type") env _ v reqsF hfetch]
  simp [procResult, procReqs]

theorem procResult_flags (name : String) (ftype : Option Js) (a : RepoAnalysis) (v : Js) :
    (procResult name ftype a v).hasDockerCompose = (a.hasDockerCompose || composeNameMatch name) ∧
    (procResult name ftype a v).hasDockerfile = (a.hasDockerfile || dockerfileNameMatch name) ∧
    (procResult name ftype a v).hasTerraform = (a.hasTerraform || terraformNameMatch name) ∧
    (procResult name ftype a v).hasKubernetes = (a.hasKubernetes || kubernetesNameMatch name) ∧
    (procResult name ftype a v).dockerComposeFile =
      (if composeNameMatch name then Option.some v else a.dockerComposeFile) ∧
    (procResult name ftype a v).dockerfiles =
      a.dockerfiles ++ (if dockerfileNameMatch name then [v] else []) ∧
    (procResult name ftype a v).terraformFiles =
      a.terraformFiles ++ (if terraformNameMatch name then [v] else []) ∧
    (procResult name ftype a v).kubernetesFiles =
      a.kubernetesFiles ++
        (if kubernetesNameMatch name && isStrEq ftype "file" then [v] else []) := by
  unfold procResult
  cases hc : composeNameMatch name <;> cases hd : dockerfileNameMatch name <;>
    cases ht : terraformNameMatch name <;> cases hk : kubernetesNameMatch name <;>
    cases hty : isStrEq ftype "file" <;> simp

/-- C5: each root entry is classified by each rule independently (several
rules may each count the same entry); a name equal to `Dockerfile` or
starting with `Dockerfile.` sets the container-build flag and appends
exactly one record to the container-build collection, while
`Readme.Dockerfile` (merely containing the word) matches no
container-build rule. -/
theorem scanner_dockerfile_rule (owner repo : String) (br : Option String) (env : Env)
    (file : Js) (name : String) (a : RepoAnalysis) (v : Js) (reqsF : List Request)
    (hname : entryName file = Except.ok name)
    (hfetch : getRepoFile owner repo (tmplStr (file.get "path")) br env = (Except.ok v, reqsF)) :
    (∃ reqs a', processFile owner repo br file a env = ((a', Option.none), reqs) ∧
      a'.hasDockerCompose = (a.hasDockerCompose || composeNameMatch name) ∧
      a'.hasDockerfile = (a.hasDockerfile || dockerfileNameMatch name) ∧
      a'.hasTerraform = (a.hasTerraform || terraformNameMatch name) ∧
      a'.hasKubernetes = (a.hasKubernetes || kubernetesNameMatch name) ∧
      a'.dockerfiles.length = a.dockerfiles.length +
        (if dockerfileNameMatch name then 1 else 0)) ∧
    dockerfileNameMatch "Dockerfile" = true ∧
    dockerfileNameMatch "Dockerfile.prod" = true ∧
    dockerfileNameMatch "Readme.Dockerfile" = false := by
  obtain ⟨h1, h2, h3, h4, h5, h6, h7, h8⟩ := procResult_flags name (file.get "type") a v
  refine ⟨⟨procReqs name (file.get "type") reqsF, procResult name (file.get "type") a v,
    processFile_eq owner repo br env file name a v reqsF hname hfetch,
    h1, h2, h3, h4, ?_⟩, by decide, by decide, by decide⟩
  rw [h6]
  cases hd : dockerfileNameMatch name <;> simp

/-- C5 witness: a concrete `Dockerfile.prod` entry in a succeeding
environment. -/
theorem scanner_dockerfile_rule_witness :
    (∃ reqs a', processFile "o" "r" Option.none dockerfileProdEntry emptyAnalysis envHappy =
        ((a', Option.none), reqs) ∧
      a'.hasDockerCompose = (emptyAnalysis.hasDockerCompose || composeNameMatch "Dockerfile.prod") ∧
      a'.hasDockerfile = (emptyAnalysis.hasDockerfile || dockerfileNameMatch "Dockerfile.prod") ∧
      a'.hasTerraform = (emptyAnalysis.hasTerraform || terraformNameMatch "Dockerfile.prod") ∧
      a'.hasKubernetes = (emptyAnalysis.hasKubernetes || kubernetesNameMatch "Dockerfile.prod") ∧
      a'.dockerfiles.length = emptyAnalysis.dockerfiles.length +
        (if dockerfileNameMatch "Dockerfile.prod" then 1 else 0)) ∧
    dockerfileNameMatch "Dockerfile" = true ∧
    dockerfileNameMatch "Dockerfile.prod" = true ∧
    dockerfileNameMatch "Readme.Dockerfile" = false :=
  scanner_dockerfile_rule "o" "r" Option.none envHappy dockerfileProdEntry "Dockerfile.prod"
    emptyAnalysis (Js.str "payload") [contentsReq "o" "r" "Dockerfile.prod" Option.none "t"]
    rfl rfl

/-- C6: a name containing the case-sensitive substring `k8s` or
`kubernetes` sets the orchestration flag, but the entry's content is
fetched and appended only when its type is `"file"`; concretely, a
`k8s-manifests` entry of a non-`file` type sets the flag while
contributing no record and issuing no fetch. -/
theorem scanner_kubernetes_rule (owner repo : String) (br : Option String) (env : Env)
    (file : Js) (name : String) (a : RepoAnalysis) (v : Js) (reqsF : List Request)
    (hname : entryName file = Except.ok name)
    (hfetch : getRepoFile owner repo (tmplStr (file.get "path")) br env = (Except.ok v, reqsF)) :
    (∃ reqs a', processFile owner repo br file a env = ((a', Option.none), reqs) ∧
      a'.hasKubernetes = (a.hasKubernetes || kubernetesNameMatch name) ∧
      a'.kubernetesFiles.length = a.kubernetesFiles.length +
        (if kubernetesNameMatch name && isStrEq (file.get "type") "file" then 1 else 0)) ∧
    (∀ (env2 : Env) (a2 : RepoAnalysis),
      processFile "o" "r" Option.none k8sDirEntry a2 env2 =
        (({ a2 with hasKubernetes := true }, Option.none), [])) ∧
    kubernetesNameMatch "k8s-manifests" = true ∧
    isStrEq (k8sDirEntry.get "type") "file" = false := by
  obtain ⟨h1, h2, h3, h4, h5, h6, h7, h8⟩ := procResult_flags name (file.get "type") a v
  refine ⟨⟨procReqs name (file.get "type") reqsF, procResult name (file.get "type") a v,
    processFile_eq owner repo br env file name a v reqsF hname hfetch, h4, ?_⟩,
    fun env2 a2 => rfl, by decide, by decide⟩
  rw [h8]
  cases hk : (kubernetesNameMatch name && isStrEq (file.get "type") "file") <;> simp

/-- C6 witness: a concrete `k8s.yaml` file entry in a succeeding
environment. -/
theorem scanner_kubernetes_rule_witness :
    (∃ reqs a', processFile "o" "r" Option.none k8sFileEntry emptyAnalysis envHappy =
        ((a', Option.none), reqs) ∧
      a'.hasKubernetes = (emptyAnalysis.hasKubernetes || kubernetesNameMatch "k8s.yaml") ∧
      a'.kubernetesFiles.length = emptyAnalysis.kubernetesFiles.length +
        (if kubernetesNameMatch "k8s.yaml" && isStrEq (k8sFileEntry.get "type") "file"
         then 1 else 0)) ∧
    (∀ (env2 : Env) (a2 : RepoAnalysis),
      processFile "o" "r" Option.none k8sDirEntry a2 env2 =
        (({ a2 with hasKubernetes := true }, Option.none), [])) ∧
    kubernetesNameMatch "k8s-manifests" = true ∧
    isStrEq (k8sDirEntry.get "type") "file" = false :=
  scanner_kubernetes_rule "o" "r" Option.none envHappy k8sFileEntry "k8s.yaml"
    emptyAnalysis (Js.str "payload") [contentsReq "o" "r" "k8s.yaml" Option.none "t"]
    rfl rfl

/-- C7: exactly the two spellings `docker-compose.yml` /
`docker-compose.yaml` match the compose rule; a matching entry sets the
compose flag and stores that single file's fetched content, overwriting
whatever was stored before (so with several matches the last one in
listing order wins, as the concrete two-entry scan shows). -/
theorem scanner_compose_rule (owner repo : String) (br : Option String) (env : Env)
    (file : Js) (name : String) (a : RepoAnalysis) (v : Js) (reqsF : List Request)
    (hname : entryName file = Except.ok name)
    (hfetch : getRepoFile owner repo (tmplStr (file.get "path")) br env = (Except.ok v, reqsF)) :
    (∃ reqs a', processFile owner repo br file a env = ((a', Option.none), reqs) ∧
      a'.hasDockerCompose = (a.hasDockerCompose || composeNameMatch name) ∧
      a'.dockerComposeFile =
        (if composeNameMatch name then Option.some v else a.dockerComposeFile)) ∧
    composeNameMatch "docker-compose.yml" = true ∧
    composeNameMatch "docker-compose.yaml" = true ∧
    composeNameMatch "docker-compose.yml.bak" = false ∧
    composeNameMatch "xdocker-compose.yml" = false ∧
    (analyzeRepository "o" "r" Option.none envCompose2).1 =
      Except.ok { emptyAnalysis with
        hasDockerCompose := true,
        dockerComposeFile := Option.some (Js.str "two") } := by
  obtain ⟨h1, h2, h3, h4, h5, h6, h7, h8⟩ := procResult_flags name (file.get "type") a v
  exact ⟨⟨procReqs name (file.get "type") reqsF, procResult name (file.get "type") a v,
    processFile_eq owner repo br env file name a v reqsF hname hfetch, h1, h5⟩,
    by decide, by decide, by decide, by decide, rfl⟩

/-- C7 witness: a concrete compose entry, fetched into the analysis over
a previously nonempty `dockerComposeFile` (showing the overwrite). -/
theorem scanner_compose_rule_witness :
    (∃ reqs a', processFile "o" "r" Option.none composeEntryYml
        { emptyAnalysis with dockerComposeFile := Option.some (Js.str "old") } envHappy =
        ((a', Option.none), reqs) ∧
      a'.hasDockerCompose =
        ({ emptyAnalysis with
            dockerComposeFile := Option.some (Js.str "old") }.hasDockerCompose ||
          composeNameMatch "docker-compose.yml") ∧
      a'.dockerComposeFile =
        (if composeNameMatch "docker-compose.yml" then Option.some (Js.str "payload")
         else { emptyAnalysis with
            dockerComposeFile := Option.some (Js.str "old") }.dockerComposeFile)) ∧
    composeNameMatch "docker-compose.yml" = true ∧
    composeNameMatch "docker-compose.yaml" = true ∧
    composeNameMatch "docker-compose.yml.bak" = false ∧
    composeNameMatch "xdocker-compose.yml" = false ∧
    (analyzeRepository "o" "r" Option.none envCompose2).1 =
      Except.ok { emptyAnalysis with
        hasDockerCompose := true,
        dockerComposeFile := Option.some (Js.str "two") } :=
  scanner_compose_rule "o" "r" Option.none envHappy composeEntryYml "docker-compose.yml"
    { emptyAnalysis with dockerComposeFile := Option.some (Js.str "old") }
    (Js.str "payload") [contentsReq "o" "r" "docker-compose.yml" Option.none "t"]
    rfl rfl

/-- C10: within one entry, the presence flag is set before the content
fetch is attempted, so a failing fetch leaves the flag true with the
collection not updated (compose and container-build cases shown), and a
whole scan over a compose entry whose fetch fails returns
`hasDockerCompose = true` with `dockerComposeFile` still absent. -/
theorem scanner_flag_set_before_fetch (owner repo : String) (br : Option String) (env : Env)
    (file : Js) (name : String) (a : RepoAnalysis) (e : JsError) (reqsF : List Request)
    (hname : entryName file = Except.ok name)
    (hfail : getRepoFile owner repo (tmplStr (file.get "path")) br env =
      (Except.error e, reqsF)) :
    (composeNameMatch name = true →
      processFile owner repo br file a env =
        (({ a with hasDockerCompose := true }, Option.some e), reqsF)) ∧
    (composeNameMatch name = false → dockerfileNameMatch name = true →
      processFile owner repo br file a env =
        (({ a with hasDockerfile := true }, Option.some e), reqsF)) ∧
    (analyzeRepository "o" "r" Option.none envScanFetchFail).1 =
      Except.ok { emptyAnalysis with hasDockerCompose := true } := by
  have h0 : processFile owner repo br file a env =
      scanSeq (composeRuleStep owner repo br name (tmplStr (file.get "path")) env a) (fun a1 =>
        scanSeq (dockerfileRuleStep owner repo br name (tmplStr (file.get "path")) env a1) fun a2 =>
          scanSeq (terraformRuleStep owner repo br name (tmplStr (file.get "path")) env a2) fun a3 =>
            kubernetesRuleStep owner repo br name (tmplStr (file.get "path"))
              (file.get "type") env a3) := by
    unfold processFile
    rw [hname]
  refine ⟨?_, ?_, rfl⟩
  · intro hc
    rw [h0]
    have h1 : composeRuleStep owner repo br name (tmplStr (file.get "path")) env a =
        (({ a with hasDockerCompose := true }, Option.some e), reqsF) := by
      unfold composeRuleStep
      rw [hc]
      simp [hfail]
    rw [h1]
    rfl
  · intro hc hd
    rw [h0]
    have h1 : composeRuleStep owner repo br name (tmplStr (file.get "path")) env a =
        ((a, Option.none), []) := by
      unfold composeRuleStep
      rw [hc]
      simp
    rw [h1, scanSeq_ok]
    have h2 : dockerfileRuleStep owner repo br name (tmplStr (file.get "path")) env a =
        (({ a with hasDockerfile := true }, Option.some e), reqsF) := by
      unfold dockerfileRuleStep
      rw [hd]
      simp [hfail]
    rw [h2]
    simp [scanSeq]

/-- C10 witness: a compose entry whose fetch fails, inside a scan. -/
theorem scanner_flag_set_before_fetch_witness :
    (composeNameMatch "docker-compose.yml" = true →
      processFile "o" "r" Option.none composeEntryYml emptyAnalysis envFail =
        (({ emptyAnalysis with hasDockerCompose := true },
          Option.some (JsError.error "GitHub API error: Not Found")),
         [contentsReq "o" "r" "docker-compose.yml" Option.none "t"])) ∧
    (composeNameMatch "docker-compose.yml" = false →
      dockerfileNameMatch "docker-compose.yml" = true →
      processFile "o" "r" Option.none composeEntryYml emptyAnalysis envFail =
        (({ emptyAnalysis with hasDockerfile := true },
          Option.some (JsError.error "GitHub API error: Not Found")),
         [contentsReq "o" "r" "docker-compose.yml" Option.none "t"])) ∧
    (analyzeRepository "o" "r" Option.none envScanFetchFail).1 =
      Except.ok { emptyAnalysis with hasDockerCompose := true } :=
  scanner_flag_set_before_fetch "o" "r" Option.none envFail composeEntryYml
    "docker-compose.yml" emptyAnalysis (JsError.error "GitHub API error: Not Found")
    [contentsReq "o" "r" "docker-compose.yml" Option.none "t"] rfl rfl

/-- C3 counterexample: on old text `"a"` and new text `"a\n"` (new lines
`["a", ""]`), the renderer marks row 1 changed (`undefined !== ""`),
while the claimed pad-with-empty-lines rule calls that row unchanged
(`"" === ""`). -/
theorem renderDiff_padding_rule_fails :
    (renderDiff "a" "a\n").map DiffRow.changed = [false, true] ∧
    specPaddedChanged "a" "a\n" 1 = false := by decide

/-- C3 (amended): the renderer is pure; it splits both texts on line
boundaries and produces `max` rows; row `i` is marked changed exactly
when the two line sequences differ at `i` as OPTIONAL values — an index
past the end of one side (JS `undefined`) differs from every actual
line, including the empty line.  The concrete example still holds: on
old = `"a\nb"`, new = `"a\nc\nd"`, three rows, changed
`[false, true, true]`. -/
theorem renderDiff_rows (oldC newC : String) (i : Nat)
    (hi : i < max (splitLines oldC).length (splitLines newC).length) :
    (renderDiff oldC newC).length =
      max (splitLines oldC).length (splitLines newC).length ∧
    (renderDiff oldC newC).get? i =
      Option.some { oldLine := (splitLines oldC).get? i,
                    newLine := (splitLines newC).get? i,
                    changed := decide ((splitLines oldC).get? i ≠ (splitLines newC).get? i) } ∧
    renderDiff "a\nb" "a\nc\nd" =
      [{ oldLine := Option.some "a", newLine := Option.some "a", changed := false },
       { oldLine := Option.some "b", newLine := Option.some "c", changed := true },
       { oldLine := Option.none, newLine := Option.some "d", changed := true }] := by
  refine ⟨by simp [renderDiff], ?_, by decide⟩
  simp [renderDiff, List.get?_map, List.get?_range, hi]

/-- C3 witness: the amended statement at the spec's own example, row 2. -/
theorem renderDiff_rows_witness :
    (renderDiff "a\nb" "a\nc\nd").length =
      max (splitLines "a\nb").length (splitLines "a\nc\nd").length ∧
    (renderDiff "a\nb" "a\nc\nd").get? 2 =
      Option.some { oldLine := (splitLines "a\nb").get? 2,
                    newLine := (splitLines "a\nc\nd").get? 2,
                    changed := decide ((splitLines "a\nb").get? 2 ≠ (splitLines "a\nc\nd").get? 2) } ∧
    renderDiff "a\nb" "a\nc\nd" =
      [{ oldLine := Option.some "a", newLine := Option.some "a", changed := false },
       { oldLine := Option.some "b", newLine := Option.some "c", changed := true },
       { oldLine := Option.none, newLine := Option.some "d", changed := true }] :=
  renderDiff_rows "a\nb" "a\nc\nd" 2 (by decide)
